import Mathlib

/-!
Verification of the Diwa feedforward neural-network library (src/src/diwa.cpp,
src/src/diwa.h, src/src/diwa_activations.h, src/src/diwa_conv.h) against its
natural-language specification.

The C++ code is shallowly embedded as follows.

* The `Diwa` object is embedded as `DiwaState α`, polymorphic in the scalar
  type `α` that models the C `double`.  For the serialization codec the
  scalar is instantiated at `Nat`, each weight standing for the 64-bit bit
  pattern of the stored `double` (the codec in `diwa_conv.h` only ever moves
  the raw bytes of a `double`, so bit patterns are the faithful view).  For
  the numeric engine the scalar is an arbitrary `LinearOrderedField`
  (instantiated at `ℚ` for concrete witnesses; `ℝ` is also an instance).

* `malloc` is modelled by an allocation counter `nextAlloc` in the state:
  each call to `Diwa::initializeWeights` hands out a fresh allocation
  identifier.  The contents of freshly allocated (uninitialized) memory are
  modelled by an arbitrary function `junk : Nat → α` supplied by the caller,
  and the host random source (`rand()`-derived values in
  `Diwa::randomizeWeights`) by an arbitrary function `rng : Nat → α`.
  Allocation is assumed to succeed (the `MALLOC_FAILED`/NULL branch is not
  modelled); no claim concerns allocation failure.

* The C `int` fields are modelled as `Int`; loop bounds `for(i = 0; i < n)`
  with `n : Int` become iteration over `List.range n.toNat`, which agrees
  with C semantics also for negative `n` (zero iterations).  C truthiness
  tests `if(hiddenLayers)` become `≠ 0` tests.

* The activation region (`this->outputs`) is modelled as a list
  `activations`; writing through a pointer becomes `List.set` (an
  out-of-range `List.set` is a no-op and an out-of-range read yields the
  `getD` default 0; within the hypotheses of the claims all accesses are in
  range).  The weight region is the list `weights` of length
  `weightCount.toNat` — the first `weightCount` slots of the C allocation,
  which is `sizeof(double) * weightCount * neuronCount` bytes and therefore
  large enough whenever `neuronCount ≥ 1`.
-/

/-- The `DiwaError` enumeration from src/src/diwa.h. -/
inductive DiwaError where
  | NO_ERROR
  | INVALID_PARAM_VALUES
  | MODEL_READ_ERROR
  | MODEL_SAVE_ERROR
  | INVALID_MAGIC_NUMBER
  | STREAM_NOT_OPEN
  | NO_ESP_PSRAM
deriving DecidableEq, Repr

open DiwaError

/-- State of a `Diwa` object (fields of the class in src/src/diwa.h), with the
three region pointers represented by allocation identifiers plus offsets.
`weights` holds the contents of the weight region `[0, weightCount)` of the
allocation `weightsAlloc`; `activations` holds the contents of the activation
region that `this->outputs` points at. -/
structure DiwaState (α : Type) where
  inputNeurons : Int
  hiddenNeurons : Int
  hiddenLayers : Int
  outputNeurons : Int
  weightCount : Int
  neuronCount : Int
  /-- Allocation id the `weights` pointer targets. -/
  weightsAlloc : Nat
  /-- Allocation id the `outputs` pointer targets. -/
  outputsAlloc : Nat
  /-- Offset (in doubles) of `outputs` inside its allocation. -/
  outputsOff : Int
  /-- Allocation id the `deltas` pointer targets. -/
  deltasAlloc : Nat
  /-- Offset (in doubles) of `deltas` inside its allocation. -/
  deltasOff : Int
  weights : List α
  activations : List α
  /-- Next fresh allocation identifier (models the heap). -/
  nextAlloc : Nat
  /-- The pluggable activation function field (`this->activation`). -/
  activation : α → α

namespace Diwa

/-- `hiddenWeightCount + outputWeightCount` exactly as computed in
`Diwa::initialize` (src/src/diwa.cpp lines 94-107), with C truthiness
`hiddenLayers ?` rendered as `≠ 0`. -/
def wFormula (inputNeurons hiddenLayers hiddenNeurons outputNeurons : Int) : Int :=
  (if hiddenLayers ≠ 0 then
    (inputNeurons + 1) * hiddenNeurons +
      (hiddenLayers - 1) * (hiddenNeurons + 1) * hiddenNeurons
   else 0) +
  (if hiddenLayers ≠ 0 then hiddenNeurons + 1 else inputNeurons + 1) * outputNeurons

/-- `neuronCount` exactly as computed in `Diwa::initialize`
(src/src/diwa.cpp line 108). -/
def nFormula (inputNeurons hiddenLayers hiddenNeurons outputNeurons : Int) : Int :=
  inputNeurons + hiddenNeurons * hiddenLayers + outputNeurons

/-- `for(i = 0; i < n; i++) buf[i] = f(i);` — the write loop shared by
`Diwa::randomizeWeights` and the weight-fill loops in `Diwa::loadFromFile`. -/
def setLoop {α : Type} (buf : List α) (f : Nat → α) (n : Nat) : List α :=
  (List.range n).foldl (fun b i => b.set i (f i)) buf

/-- `Diwa::initializeWeights` (src/src/diwa.cpp lines 125-138): allocates a
fresh buffer of `weightCount * neuronCount` doubles and repoints
`this->weights` at it.  The weight region of the fresh buffer holds
arbitrary (uninitialized) contents `junk`.  Allocation is assumed to
succeed, so the function always returns `NO_ERROR` and is modelled as a
pure state transformer. -/
def initializeWeights {α : Type} (s : DiwaState α) (junk : Nat → α) : DiwaState α :=
  { s with
    weightsAlloc := s.nextAlloc
    nextAlloc := s.nextAlloc + 1
    weights := (List.range s.weightCount.toNat).map junk }

/-- `Diwa::randomizeWeights` (src/src/diwa.cpp lines 66-73): fills the weight
region `[0, weightCount)` with values drawn from the host random source. -/
def randomizeWeightsFn {α : Type} (s : DiwaState α) (rng : Nat → α) : DiwaState α :=
  { s with weights := setLoop s.weights rng s.weightCount.toNat }

/-- `Diwa::initialize` (src/src/diwa.cpp lines 75-123), named `initializeNet` here because `initialize` is reserved in Lean.  Mirrors the source
statement for statement: early no-op return when all four counts are zero;
the weight/neuron count formulas; conditional allocation (`initializeWeights`
is called only when `randomizeWeights` is set); `outputs`/`deltas` pointer
setup from the current `weights` pointer; conditional randomization. -/
def initializeNet {α : Type} (s : DiwaState α)
    (inputNeurons hiddenLayers hiddenNeurons outputNeurons : Int)
    (randomize : Bool) (rng junk : Nat → α) : DiwaError × DiwaState α :=
  if inputNeurons = 0 ∧ hiddenLayers = 0 ∧ hiddenNeurons = 0 ∧ outputNeurons = 0 then
    (NO_ERROR, s)
  else
    let s1 : DiwaState α :=
      { s with
        inputNeurons := inputNeurons
        hiddenLayers := hiddenLayers
        hiddenNeurons := hiddenNeurons
        outputNeurons := outputNeurons
        weightCount := wFormula inputNeurons hiddenLayers hiddenNeurons outputNeurons
        neuronCount := nFormula inputNeurons hiddenLayers hiddenNeurons outputNeurons }
    let s2 := if randomize then initializeWeights s1 junk else s1
    let s3 : DiwaState α :=
      { s2 with
        outputsAlloc := s2.weightsAlloc
        outputsOff := s2.weightCount
        deltasAlloc := s2.weightsAlloc
        deltasOff := s2.weightCount + s2.neuronCount }
    let s4 := if randomize then randomizeWeightsFn s3 rng else s3
    (NO_ERROR, s4)

end Diwa

/-! ## The serialization codec (src/src/diwa_conv.h and the save/load members)

Bytes are `Nat`s; reading a byte from a stream into a `uint8_t` buffer
truncates it mod 256 (`readBytes`).  A `double` travels as its raw 8-byte
pattern (the `double_p` union in diwa_conv.h), so a weight is modelled as
the `Nat` below `2^64` formed from those bytes in host (little-endian)
order. -/

/-- `DiwaConv::intToU8a` (src/src/diwa_conv.h lines 62-71): the four bytes
`(value >> 0) & 0xFF`, …, `(value >> 24) & 0xFF` of a C `int`, i.e. the
base-256 digits of the value taken mod `2^32` (two's complement). -/
def intToU8a (value : Int) : List Nat :=
  let m := (value % 4294967296).toNat
  [m % 256, m / 256 % 256, m / 65536 % 256, m / 16777216 % 256]

/-- `DiwaConv::u8aToInt` (src/src/diwa_conv.h lines 81-90): reassembles the
C `int` from four bytes.  The source ORs the shifted bytes into an `int`;
for genuine bytes (each `< 256`) the shifted summands occupy disjoint bit
ranges, so OR equals addition, and a top byte `≥ 128` lands in the sign bit
(two's complement). -/
def u8aToInt (bytes : List Nat) : Int :=
  let n : Nat :=
    bytes.getD 0 0 + 256 * bytes.getD 1 0 + 65536 * bytes.getD 2 0 +
      16777216 * bytes.getD 3 0
  if n < 2147483648 then (n : Int) else (n : Int) - 4294967296

/-- `DiwaConv::doubleToU8a` (src/src/diwa_conv.h lines 100-109): the eight
bytes of the `double`'s bit pattern in host order. -/
def doubleToU8a (w : Nat) : List Nat :=
  [w % 256, w / 256 % 256, w / 65536 % 256, w / 16777216 % 256,
   w / 4294967296 % 256, w / 1099511627776 % 256,
   w / 281474976710656 % 256, w / 72057594037927936 % 256]

/-- `DiwaConv::u8aToDouble` (src/src/diwa_conv.h lines 119-125): rebuilds the
bit pattern from eight bytes. -/
def u8aToDouble (bytes : List Nat) : Nat :=
  bytes.getD 0 0 + 256 * bytes.getD 1 0 + 65536 * bytes.getD 2 0 +
    16777216 * bytes.getD 3 0 + 4294967296 * bytes.getD 4 0 +
    1099511627776 * bytes.getD 5 0 + 281474976710656 * bytes.getD 6 0 +
    72057594037927936 * bytes.getD 7 0

/-- Reading `n` sequential bytes of a stream starting at `off` into a
`uint8_t` buffer.  Bytes past the end of the stream read as 0 (all claims
constrain the stream so that this padding is never reached). -/
def readBytes : List Nat → Nat → Nat → List Nat
  | _, _, 0 => []
  | l, off, n + 1 => l.getD off 0 % 256 :: readBytes l (off + 1) n

/-- The 4 magic bytes `'d','i','w','a'`. -/
def diwaMagic : List Nat := [100, 105, 119, 97]

/-- `memcmp` on byte buffers, glibc style: 0 if equal, otherwise the
difference of the first differing bytes.  The C standard only fixes the
sign of the result; the counterexample below depends only on the sign. -/
def memcmpBytes : List Nat → List Nat → Int
  | [], _ => 0
  | _, [] => 0
  | x :: xs, y :: ys => if x = y then memcmpBytes xs ys else (x : Int) - (y : Int)

namespace Diwa

/-- `Diwa::saveToFile` for hosted builds (src/src/diwa.cpp lines 445-463):
checks that the sink is open, then writes the magic, the six header ints in
the order input, hiddenNeurons, hiddenLayers, output, weightCount,
neuronCount, then `weightCount` weight patterns from the weight region.
Returns the error code together with the bytes written. -/
def saveToFile (s : DiwaState Nat) (isOpen : Bool) : DiwaError × List Nat :=
  if ¬isOpen then (STREAM_NOT_OPEN, [])
  else
    (NO_ERROR,
      diwaMagic ++
      intToU8a s.inputNeurons ++ intToU8a s.hiddenNeurons ++
      intToU8a s.hiddenLayers ++ intToU8a s.outputNeurons ++
      intToU8a s.weightCount ++ intToU8a s.neuronCount ++
      (List.range s.weightCount.toNat).flatMap (fun i => doubleToU8a (s.weights.getD i 0)))

/-- `Diwa::loadFromFile` for hosted builds (src/src/diwa.cpp lines 391-443).
Sequential reads are rendered as reads at the cumulative offsets 0, 4, 8,
…, 24 and `28 + 8*i`.  Note the source calls `initialize` with
`randomize = true` and then calls `initializeWeights` a second time, so the
weight buffer is allocated twice; the model reproduces this. -/
def loadFromFile (s : DiwaState Nat) (bytes : List Nat) (isOpen : Bool)
    (rng junk : Nat → Nat) : DiwaError × DiwaState Nat :=
  if ¬isOpen then (STREAM_NOT_OPEN, s)
  else if readBytes bytes 0 4 ≠ diwaMagic then (INVALID_MAGIC_NUMBER, s)
  else
    let s1 : DiwaState Nat :=
      { s with
        inputNeurons := u8aToInt (readBytes bytes 4 4)
        hiddenNeurons := u8aToInt (readBytes bytes 8 4)
        hiddenLayers := u8aToInt (readBytes bytes 12 4)
        outputNeurons := u8aToInt (readBytes bytes 16 4)
        weightCount := u8aToInt (readBytes bytes 20 4)
        neuronCount := u8aToInt (readBytes bytes 24 4) }
    match initializeNet s1 s1.inputNeurons s1.hiddenLayers s1.hiddenNeurons
        s1.outputNeurons true rng junk with
    | (NO_ERROR, s2) =>
      let s3 := initializeWeights s2 junk
      let s4 : DiwaState Nat :=
        { s3 with
          weights := setLoop s3.weights
            (fun i => u8aToDouble (readBytes bytes (28 + 8 * i) 8))
            s3.weightCount.toNat }
      (NO_ERROR, s4)
    | (e, s2) => (e, s2)

/-- `Diwa::loadFromFile` for Arduino builds (src/src/diwa.cpp lines 316-365).
Differs from the hosted build in two ways visible here: the magic test is
`memcmp(magic, "diwa", 4) == 1`, and `initialize` is called with
`randomize = false`. -/
def loadFromFileArduino (s : DiwaState Nat) (bytes : List Nat)
    (rng junk : Nat → Nat) : DiwaError × DiwaState Nat :=
  if memcmpBytes (readBytes bytes 0 4) diwaMagic = 1 then (INVALID_MAGIC_NUMBER, s)
  else
    let s1 : DiwaState Nat :=
      { s with
        inputNeurons := u8aToInt (readBytes bytes 4 4)
        hiddenNeurons := u8aToInt (readBytes bytes 8 4)
        hiddenLayers := u8aToInt (readBytes bytes 12 4)
        outputNeurons := u8aToInt (readBytes bytes 16 4)
        weightCount := u8aToInt (readBytes bytes 20 4)
        neuronCount := u8aToInt (readBytes bytes 24 4) }
    match initializeNet s1 s1.inputNeurons s1.hiddenLayers s1.hiddenNeurons
        s1.outputNeurons false rng junk with
    | (NO_ERROR, s2) =>
      let s3 := initializeWeights s2 junk
      let s4 : DiwaState Nat :=
        { s3 with
          weights := setLoop s3.weights
            (fun i => u8aToDouble (readBytes bytes (28 + 8 * i) 8))
            s3.weightCount.toNat }
      (NO_ERROR, s4)
    | (e, s2) => (e, s2)

end Diwa

/-! ## The shape of a stored model stream -/

/-- Range of a 32-bit C `int`. -/
def intRange (v : Int) : Prop := -2147483648 ≤ v ∧ v < 2147483648

/-- Range of a 64-bit pattern. -/
def patRange (w : Nat) : Prop := w < 18446744073709551616

/-- The byte stream of a stored model: magic, the six header ints in file
order (inputCount, hiddenWidth, hiddenLayerCount, outputCount, weightCount,
neuronCount), then the raw weight patterns. -/
def streamOf (i hn hl o wc nc : Int) (ws : List Nat) : List Nat :=
  diwaMagic ++ (intToU8a i ++ (intToU8a hn ++ (intToU8a hl ++ (intToU8a o ++
    (intToU8a wc ++ (intToU8a nc ++ ws.flatMap doubleToU8a))))))


/-- Final `weightCount` after a load of `streamOf i hn hl o wc nc ws`: the
stream's own value when the topology is all-zero (the all-zero early return
in `initialize` skips the recomputation), and the recomputed formula value
otherwise. -/
def wcFinal (i hn hl o wc : Int) : Int :=
  if i = 0 ∧ hl = 0 ∧ hn = 0 ∧ o = 0 then wc else Diwa.wFormula i hl hn o

/-- Final `neuronCount` after a load, analogous to `wcFinal`. -/
def ncFinal (i hn hl o nc : Int) : Int :=
  if i = 0 ∧ hl = 0 ∧ hn = 0 ∧ o = 0 then nc else Diwa.nFormula i hl hn o


/-! ## The numeric engine (src/src/diwa.cpp lines 140-190 and 467-489)

The scalar `α` is an arbitrary linear ordered field standing for the C
`double`; the pluggable activation function is the state's `activation`
field.  The C pointer walk is rendered with explicit cursors: `c` is the
index of the next weight to be consumed inside the weight region, `rOff`
the offset of the previous layer inside the activation region, `wOff` the
offset of the next activation slot to be written. -/

namespace Diwa

/-- One neuron of `Diwa::inference`:
`sum = *weights++ * -1.0; for(k < pc) sum += *weights++ * inputs[k];`
with `c` the cursor of the neuron's bias weight and `pc` the width of the
previous layer read at `rOff`. -/
def neuronSum {α : Type} [LinearOrderedField α] (ws : List α) (c : Nat) (A : List α)
    (rOff pc : Nat) : α :=
  (List.range pc).foldl
    (fun sum k => sum + ws.getD (c + 1 + k) 0 * A.getD (rOff + k) 0)
    (ws.getD c 0 * (-1))

/-- One layer of `Diwa::inference`: `n` neurons, the `j`-th consuming the
`pc + 1` weights starting at cursor `c + j*(pc+1)`, reading the previous
layer at `rOff` in the (current) activation region and writing its result
at `wOff + j` (`*outputs++ = this->activation(sum);`). -/
def evalNeuronsInto {α : Type} [LinearOrderedField α] (f : α → α) (ws : List α) (c : Nat)
    (A : List α) (rOff pc wOff n : Nat) : List α :=
  (List.range n).foldl
    (fun B j => B.set (wOff + j) (f (neuronSum ws (c + j * (pc + 1)) B rOff pc)))
    A

/-- One iteration of the `for(h = 1; h < hiddenLayers)` loop of
`Diwa::inference`: evaluate one hidden layer of `hc` neurons reading the
previous one, then advance the weight cursor by `hc*(hc+1)` (`inputs +=
hiddenNeurons` / the consumed weights) and both offsets by `hc`. -/
def hiddenStep {α : Type} [LinearOrderedField α] (f : α → α) (ws : List α) (hc : Nat)
    (p : List α × Nat × Nat × Nat) (_h : Nat) : List α × Nat × Nat × Nat :=
  (evalNeuronsInto f ws p.2.1 p.1 p.2.2.1 hc p.2.2.2 hc,
    p.2.1 + hc * (hc + 1), p.2.2.1 + hc, p.2.2.2 + hc)

/-- `Diwa::inference` (src/src/diwa.cpp lines 140-190).  Returns the state
with the activation region rewritten together with the values of the
returned view (the `outputNeurons` activations of the final layer).  The
structure mirrors the source exactly: the `memcpy` of the input into the
first `inputNeurons` slots, the no-hidden-layer early branch, the first
hidden layer read from the input slots, the `for(h = 1; h < hiddenLayers)`
loop with its advancing weight cursor / read offset / write offset, and the
output layer read from the last processed layer. -/
def inferenceRun {α : Type} [LinearOrderedField α] (s : DiwaState α) (input : List α) :
    DiwaState α × List α :=
  let ic := s.inputNeurons.toNat
  let hc := s.hiddenNeurons.toNat
  let oc := s.outputNeurons.toNat
  let A0 := setLoop s.activations (fun k => input.getD k 0) ic
  if s.hiddenLayers = 0 then
    let A1 := evalNeuronsInto s.activation s.weights 0 A0 0 ic ic oc
    ({ s with activations := A1 }, (List.range oc).map (fun j => A1.getD (ic + j) 0))
  else
    let A1 := evalNeuronsInto s.activation s.weights 0 A0 0 ic ic hc
    let t := (List.range (s.hiddenLayers - 1).toNat).foldl
      (hiddenStep s.activation s.weights hc) (A1, hc * (ic + 1), ic, ic + hc)
    let A2 := evalNeuronsInto s.activation s.weights t.2.1 t.1 t.2.2.1 hc t.2.2.2 oc
    ({ s with activations := A2 }, (List.range oc).map (fun j => A2.getD (t.2.2.2 + j) 0))

/-- `Diwa::testInference` (src/src/diwa.cpp lines 467-476): runs inference
and reports the trial correct unless some output slot is `< 0.5` while the
corresponding expected output is nonzero. -/
def testInferenceRun {α : Type} [LinearOrderedField α] (s : DiwaState α)
    (testInput testExpectedOutput : List α) : DiwaState α × Bool :=
  let r := inferenceRun s testInput
  (r.1,
    (List.range s.outputNeurons.toNat).all
      (fun j => !(decide (r.2.getD j 0 < 1 / 2 ∧ testExpectedOutput.getD j 0 ≠ 0))))

/-- The counting loop of `Diwa::calculateAccuracy` (src/src/diwa.cpp lines
478-485), threading the mutated network state through the repeated
`testInference` calls. -/
def accuracyLoop {α : Type} [LinearOrderedField α] (ti tt : List α) :
    DiwaState α → Nat → Nat → DiwaState α × Nat
  | s, 0, c => (s, c)
  | s, n + 1, c =>
    accuracyLoop ti tt (testInferenceRun s ti tt).1 n
      (if (testInferenceRun s ti tt).2 then c + 1 else c)

/-- `Diwa::calculateAccuracy`: `(double) correctInference / epoch`. -/
def calculateAccuracy {α : Type} [LinearOrderedField α] (s : DiwaState α)
    (ti tt : List α) (epoch : Int) : DiwaState α × α :=
  let r := accuracyLoop ti tt s epoch.toNat 0
  (r.1, (r.2 : α) / (epoch : α))

/-- `Diwa::calculateLoss`: `1.0 - calculateAccuracy(...)`. -/
def calculateLoss {α : Type} [LinearOrderedField α] (s : DiwaState α)
    (ti tt : List α) (epoch : Int) : DiwaState α × α :=
  let r := calculateAccuracy s ti tt epoch
  (r.1, 1 - r.2)

end Diwa

/-! ## The default activation function (src/src/diwa_activations.h)

The C `double` arithmetic of the unclamped branch is modelled over `ℝ`;
the facts proved about it below (being strictly between 0 and 1) depend
only on the positivity of the exponential and therefore also hold for the
IEEE evaluation, whose result at the bounds (≈ 9.36e-14 and ≈ 1 − 9.36e-14)
is many orders of magnitude away from 0 and 1. -/

/-- `DIWA_ACTFUNC_LOWER_BOUND` (src/src/diwa_activations.h line 49). -/
def DIWA_ACTFUNC_LOWER_BOUND : ℝ := -30

/-- `DIWA_ACTFUNC_UPPER_BOUND` (src/src/diwa_activations.h line 50). -/
def DIWA_ACTFUNC_UPPER_BOUND : ℝ := 30

namespace DiwaActivationFunc

/-- `DiwaActivationFunc::sigmoid` (src/src/diwa_activations.h lines 79-86):
`if(x < LOWER) return 0; if(x > UPPER) return 1; return 1.0/(1.0+exp(-x));`. -/
noncomputable def sigmoid (x : ℝ) : ℝ :=
  if x < DIWA_ACTFUNC_LOWER_BOUND then 0
  else if x > DIWA_ACTFUNC_UPPER_BOUND then 1
  else 1 / (1 + Real.exp (-x))

end DiwaActivationFunc

/-! ## Concrete objects used by counterexamples and witnesses -/

/-- The all-zero constant function (a concrete random source / junk fill). -/
def zfn : Nat → Nat := fun _ => 0

/-- A concrete pattern-world network state in the pending-load configuration. -/
def emptyState : DiwaState Nat := ⟨0, 0, 0, 0, 0, 0, 0, 0, 0, 0, 0, [], [], 0, id⟩

/-- A concrete pattern-world state with recognizable nonzero fields. -/
def c3state : DiwaState Nat := ⟨7, 8, 9, 10, 11, 12, 0, 0, 0, 0, 0, [], [], 0, id⟩

/-- A 28-byte stream whose first four bytes are `'c','i','w','a'` — not the
magic — followed by an all-zero header. -/
def c3stream : List Nat := [99, 105, 119, 97] ++ List.replicate 24 0

/-- A consistent (1 input, 0 hidden layers, 1 output) network over bit
patterns: `weightCount = 2`, `neuronCount = 2`, two stored weights. -/
def cState : DiwaState Nat :=
  ⟨1, 0, 0, 1, 2, 2, 0, 0, 2, 0, 4, [3, 9223372036854775813], [0, 0], 1, id⟩

/-- A concrete rational-scalar network (1 input, 0 hidden layers, 1 output)
with identity activation, used to witness the accuracy claims. -/
def qState : DiwaState ℚ := ⟨1, 0, 0, 1, 2, 2, 0, 0, 2, 0, 4, [-1, 0], [0, 0], 1, fun x => x⟩

/-- States reachable through the public interface: the six header ints are in
32-bit `int` range, the weight region holds `weightCount` genuine 64-bit
patterns, and either the topology is the all-zero pending-load one or the
two counts are the ones `initialize` computes from the topology.  Every
successful `initialize`/`loadFromFile` establishes this. -/
def goodState (s : DiwaState Nat) : Prop :=
  intRange s.inputNeurons ∧ intRange s.hiddenNeurons ∧ intRange s.hiddenLayers ∧
  intRange s.outputNeurons ∧ intRange s.weightCount ∧ intRange s.neuronCount ∧
  (∀ w ∈ s.weights, patRange w) ∧ s.weights.length = s.weightCount.toNat ∧
  ((s.inputNeurons = 0 ∧ s.hiddenLayers = 0 ∧ s.hiddenNeurons = 0 ∧ s.outputNeurons = 0) ∨
    (s.weightCount =
        Diwa.wFormula s.inputNeurons s.hiddenLayers s.hiddenNeurons s.outputNeurons ∧
      s.neuronCount =
        Diwa.nFormula s.inputNeurons s.hiddenLayers s.hiddenNeurons s.outputNeurons))

/-! ## Byte-level helper lemmas -/

lemma readBytes_skip (xs ys : List Nat) (off n : Nat) (h : xs.length ≤ off) :
    readBytes (xs ++ ys) off n = readBytes ys (off - xs.length) n := by
  induction n generalizing off with
  | zero => rfl
  | succ n ih =>
    simp only [readBytes]
    rw [List.getD_append_right _ _ _ _ h, ih (off + 1) (by omega)]
    have : off + 1 - xs.length = off - xs.length + 1 := by omega
    rw [this]

lemma readBytes_first (xs ys : List Nat) (n : Nat) (h : xs.length = n)
    (hb : ∀ b ∈ xs, b < 256) : readBytes (xs ++ ys) 0 n = xs := by
  induction xs generalizing n ys with
  | nil => subst h; rfl
  | cons x xs ih =>
    subst h
    simp only [readBytes, List.cons_append, List.getD_cons_zero, Nat.zero_add]
    rw [Nat.mod_eq_of_lt (hb x (by simp))]
    have hskip : readBytes (x :: (xs ++ ys)) 1 xs.length =
        readBytes (xs ++ ys) 0 xs.length := by
      simpa using readBytes_skip [x] (xs ++ ys) 1 xs.length (by simp)
    rw [hskip, ih ys xs.length rfl (fun b hb' => hb b (List.mem_cons_of_mem x hb'))]

lemma intToU8a_length (v : Int) : (intToU8a v).length = 4 := rfl

lemma intToU8a_lt (v : Int) : ∀ b ∈ intToU8a v, b < 256 := by
  simp only [intToU8a, List.mem_cons, List.not_mem_nil, or_false]
  rintro b (rfl | rfl | rfl | rfl) <;> omega

lemma doubleToU8a_length (w : Nat) : (doubleToU8a w).length = 8 := rfl

lemma doubleToU8a_lt (w : Nat) : ∀ b ∈ doubleToU8a w, b < 256 := by
  simp only [doubleToU8a, List.mem_cons, List.not_mem_nil, or_false]
  rintro b (rfl | rfl | rfl | rfl | rfl | rfl | rfl | rfl) <;> omega

/-- Decode-encode roundtrip for the header integers, valid on the range of a
32-bit C `int`. -/
lemma u8aToInt_intToU8a (v : Int) (h1 : -2147483648 ≤ v) (h2 : v < 2147483648) :
    u8aToInt (intToU8a v) = v := by
  simp only [intToU8a, u8aToInt, List.getD_cons_zero, List.getD_cons_succ]
  split_ifs <;> omega

/-- Decode-encode roundtrip for a 64-bit weight pattern. -/
lemma u8aToDouble_doubleToU8a (w : Nat) (h : w < 18446744073709551616) :
    u8aToDouble (doubleToU8a w) = w := by
  simp only [doubleToU8a, u8aToDouble, List.getD_cons_zero, List.getD_cons_succ]
  omega

/-- Reading the `i`-th 8-byte block of a weight payload. -/
lemma readBytes_flatMap (ws : List Nat)
    (hws : ∀ w ∈ ws, w < 18446744073709551616) :
    ∀ i, i < ws.length →
      readBytes (ws.flatMap doubleToU8a) (8 * i) 8 = doubleToU8a (ws.getD i 0) := by
  induction ws with
  | nil => intro i hi; simp at hi
  | cons w ws ih =>
    intro i hi
    cases i with
    | zero =>
      simpa using readBytes_first (doubleToU8a w) (ws.flatMap doubleToU8a) 8 rfl
        (doubleToU8a_lt w)
    | succ i =>
      rw [List.flatMap_cons,
        readBytes_skip _ _ _ _ (by rw [doubleToU8a_length]; omega)]
      have : 8 * (i + 1) - (doubleToU8a w).length = 8 * i := by
        rw [doubleToU8a_length]; omega
      rw [this, ih (fun x hx => hws x (by simp [hx])) i (by simpa using hi)]
      simp

namespace Diwa

lemma setLoop_succ {α : Type} (buf : List α) (f : Nat → α) (n : Nat) :
    setLoop buf f (n + 1) = (setLoop buf f n).set n (f n) := by
  rw [setLoop, List.range_succ, List.foldl_append]
  rfl

lemma setLoop_eq_append {α : Type} (f : Nat → α) :
    ∀ (n : Nat) (buf : List α), n ≤ buf.length →
      setLoop buf f n = (List.range n).map f ++ buf.drop n := by
  intro n
  induction n with
  | zero => intro buf _; simp [setLoop]
  | succ n ih =>
    intro buf h
    rw [setLoop_succ, ih buf (by omega), List.set_append]
    have hlen : ¬ n < ((List.range n).map f).length := by simp
    have h0 : n - ((List.range n).map f).length = 0 := by simp
    rw [if_neg hlen, h0, List.drop_eq_getElem_cons (show n < buf.length by omega),
      List.set_cons_zero]
    simp [List.range_succ]

/-- When the loop covers the whole buffer, it rewrites it completely. -/
lemma setLoop_eq_map {α : Type} (buf : List α) (f : Nat → α) (n : Nat)
    (h : buf.length = n) : setLoop buf f n = (List.range n).map f := by
  rw [setLoop_eq_append f n buf (le_of_eq h.symm), List.drop_eq_nil_of_le (le_of_eq h),
    List.append_nil]

lemma rangeMap_getD {α : Type} (l : List α) (d : α) :
    (List.range l.length).map (fun i => l.getD i d) = l := by
  apply List.ext_getElem (by simp)
  intro n h1 h2
  simp only [List.getElem_map, List.getElem_range]
  exact List.getD_eq_getElem l d h2

end Diwa

lemma readBytes_peel (xs rest : List Nat) (k n : Nat) (h : xs.length = 4) :
    readBytes (xs ++ rest) (4 + k) n = readBytes rest k n := by
  rw [readBytes_skip _ _ _ _ (by omega), h]
  norm_num

lemma streamOf_magic (i hn hl o wc nc : Int) (ws : List Nat) :
    readBytes (streamOf i hn hl o wc nc ws) 0 4 = diwaMagic := by
  unfold streamOf
  exact readBytes_first _ _ _ rfl (by decide)

lemma streamOf_read1 (i hn hl o wc nc : Int) (ws : List Nat) :
    readBytes (streamOf i hn hl o wc nc ws) 4 4 = intToU8a i := by
  unfold streamOf
  rw [show (4 : Nat) = 4 + 0 from rfl, readBytes_peel diwaMagic _ _ _ rfl]
  exact readBytes_first _ _ _ (intToU8a_length i) (intToU8a_lt i)

lemma streamOf_read2 (i hn hl o wc nc : Int) (ws : List Nat) :
    readBytes (streamOf i hn hl o wc nc ws) 8 4 = intToU8a hn := by
  unfold streamOf
  rw [show (8 : Nat) = 4 + (4 + 0) from rfl, readBytes_peel diwaMagic _ _ _ rfl,
    readBytes_peel (intToU8a i) _ _ _ (intToU8a_length i)]
  exact readBytes_first _ _ _ (intToU8a_length hn) (intToU8a_lt hn)

lemma streamOf_read3 (i hn hl o wc nc : Int) (ws : List Nat) :
    readBytes (streamOf i hn hl o wc nc ws) 12 4 = intToU8a hl := by
  unfold streamOf
  rw [show (12 : Nat) = 4 + (4 + (4 + 0)) from rfl, readBytes_peel diwaMagic _ _ _ rfl,
    readBytes_peel (intToU8a i) _ _ _ (intToU8a_length i),
    readBytes_peel (intToU8a hn) _ _ _ (intToU8a_length hn)]
  exact readBytes_first _ _ _ (intToU8a_length hl) (intToU8a_lt hl)

lemma streamOf_read4 (i hn hl o wc nc : Int) (ws : List Nat) :
    readBytes (streamOf i hn hl o wc nc ws) 16 4 = intToU8a o := by
  unfold streamOf
  rw [show (16 : Nat) = 4 + (4 + (4 + (4 + 0))) from rfl, readBytes_peel diwaMagic _ _ _ rfl,
    readBytes_peel (intToU8a i) _ _ _ (intToU8a_length i),
    readBytes_peel (intToU8a hn) _ _ _ (intToU8a_length hn),
    readBytes_peel (intToU8a hl) _ _ _ (intToU8a_length hl)]
  exact readBytes_first _ _ _ (intToU8a_length o) (intToU8a_lt o)

lemma streamOf_read5 (i hn hl o wc nc : Int) (ws : List Nat) :
    readBytes (streamOf i hn hl o wc nc ws) 20 4 = intToU8a wc := by
  unfold streamOf
  rw [show (20 : Nat) = 4 + (4 + (4 + (4 + (4 + 0)))) from rfl,
    readBytes_peel diwaMagic _ _ _ rfl,
    readBytes_peel (intToU8a i) _ _ _ (intToU8a_length i),
    readBytes_peel (intToU8a hn) _ _ _ (intToU8a_length hn),
    readBytes_peel (intToU8a hl) _ _ _ (intToU8a_length hl),
    readBytes_peel (intToU8a o) _ _ _ (intToU8a_length o)]
  exact readBytes_first _ _ _ (intToU8a_length wc) (intToU8a_lt wc)

lemma streamOf_read6 (i hn hl o wc nc : Int) (ws : List Nat) :
    readBytes (streamOf i hn hl o wc nc ws) 24 4 = intToU8a nc := by
  unfold streamOf
  rw [show (24 : Nat) = 4 + (4 + (4 + (4 + (4 + (4 + 0))))) from rfl,
    readBytes_peel diwaMagic _ _ _ rfl,
    readBytes_peel (intToU8a i) _ _ _ (intToU8a_length i),
    readBytes_peel (intToU8a hn) _ _ _ (intToU8a_length hn),
    readBytes_peel (intToU8a hl) _ _ _ (intToU8a_length hl),
    readBytes_peel (intToU8a o) _ _ _ (intToU8a_length o),
    readBytes_peel (intToU8a wc) _ _ _ (intToU8a_length wc)]
  exact readBytes_first _ _ _ (intToU8a_length nc) (intToU8a_lt nc)

lemma streamOf_payload (i hn hl o wc nc : Int) (ws : List Nat) (idx : Nat) :
    readBytes (streamOf i hn hl o wc nc ws) (28 + 8 * idx) 8 =
      readBytes (ws.flatMap doubleToU8a) (8 * idx) 8 := by
  unfold streamOf
  rw [show 28 + 8 * idx = 4 + (4 + (4 + (4 + (4 + (4 + (4 + 8 * idx)))))) by omega,
    readBytes_peel diwaMagic _ _ _ rfl,
    readBytes_peel (intToU8a i) _ _ _ (intToU8a_length i),
    readBytes_peel (intToU8a hn) _ _ _ (intToU8a_length hn),
    readBytes_peel (intToU8a hl) _ _ _ (intToU8a_length hl),
    readBytes_peel (intToU8a o) _ _ _ (intToU8a_length o),
    readBytes_peel (intToU8a wc) _ _ _ (intToU8a_length wc),
    readBytes_peel (intToU8a nc) _ _ _ (intToU8a_length nc)]

lemma flatMap_range_getD (l : List Nat) :
    (List.range l.length).flatMap (fun i => doubleToU8a (l.getD i 0)) =
      l.flatMap doubleToU8a := by
  rw [List.flatMap_def, List.flatMap_def,
    show (fun i => doubleToU8a (l.getD i 0)) = doubleToU8a ∘ (fun i => l.getD i 0)
      from rfl,
    ← List.map_map, Diwa.rangeMap_getD]

/-- Payload of `streamOf`, decoded: the `idx`-th stored weight pattern. -/
lemma streamOf_weight (i hn hl o wc nc : Int) (ws : List Nat)
    (hws : ∀ w ∈ ws, patRange w) (idx : Nat) (hidx : idx < ws.length) :
    u8aToDouble (readBytes (streamOf i hn hl o wc nc ws) (28 + 8 * idx) 8) =
      ws.getD idx 0 := by
  rw [streamOf_payload, readBytes_flatMap ws hws idx hidx,
    u8aToDouble_doubleToU8a _ (by
      rw [List.getD_eq_getElem ws 0 hidx]
      exact hws _ (List.getElem_mem _))]

namespace Diwa

/-- On an open sink, `saveToFile` writes exactly the `streamOf` bytes of the
six header fields and the weight region. -/
lemma saveToFile_eq_streamOf (s : DiwaState Nat)
    (h : s.weights.length = s.weightCount.toNat) :
    saveToFile s true =
      (NO_ERROR,
        streamOf s.inputNeurons s.hiddenNeurons s.hiddenLayers s.outputNeurons
          s.weightCount s.neuronCount s.weights) := by
  have hp : (List.range s.weightCount.toNat).flatMap
      (fun i => doubleToU8a (s.weights.getD i 0)) = s.weights.flatMap doubleToU8a := by
    rw [← h]
    exact flatMap_range_getD s.weights
  unfold saveToFile streamOf
  rw [if_neg (by simp), hp]
  simp [List.append_assoc]

lemma initializeNet_allZero {α : Type} (s : DiwaState α) {i hl hn o : Int}
    (r : Bool) (rng junk : Nat → α) (hz : i = 0 ∧ hl = 0 ∧ hn = 0 ∧ o = 0) :
    initializeNet s i hl hn o r rng junk = (NO_ERROR, s) := by
  rw [initializeNet, if_pos hz]

lemma initializeNet_pos_true {α : Type} (s : DiwaState α) {i hl hn o : Int}
    (rng junk : Nat → α) (hz : ¬(i = 0 ∧ hl = 0 ∧ hn = 0 ∧ o = 0)) :
    initializeNet s i hl hn o true rng junk =
      (NO_ERROR,
        { s with
          inputNeurons := i
          hiddenLayers := hl
          hiddenNeurons := hn
          outputNeurons := o
          weightCount := wFormula i hl hn o
          neuronCount := nFormula i hl hn o
          weightsAlloc := s.nextAlloc
          nextAlloc := s.nextAlloc + 1
          weights := setLoop ((List.range (wFormula i hl hn o).toNat).map junk) rng
            (wFormula i hl hn o).toNat
          outputsAlloc := s.nextAlloc
          outputsOff := wFormula i hl hn o
          deltasAlloc := s.nextAlloc
          deltasOff := wFormula i hl hn o + nFormula i hl hn o }) := by
  rw [initializeNet, if_neg hz]
  rfl

lemma initializeNet_pos_false {α : Type} (s : DiwaState α) {i hl hn o : Int}
    (rng junk : Nat → α) (hz : ¬(i = 0 ∧ hl = 0 ∧ hn = 0 ∧ o = 0)) :
    initializeNet s i hl hn o false rng junk =
      (NO_ERROR,
        { s with
          inputNeurons := i
          hiddenLayers := hl
          hiddenNeurons := hn
          outputNeurons := o
          weightCount := wFormula i hl hn o
          neuronCount := nFormula i hl hn o
          outputsAlloc := s.weightsAlloc
          outputsOff := wFormula i hl hn o
          deltasAlloc := s.weightsAlloc
          deltasOff := wFormula i hl hn o + nFormula i hl hn o }) := by
  rw [initializeNet, if_neg hz]
  rfl

/-- Decoding the full weight payload out of a model stream. -/
lemma fill_eq_ws (i hn hl o wc nc : Int) (ws : List Nat)
    (hws : ∀ w ∈ ws, patRange w) (n : Nat) (hlen : ws.length = n) :
    (List.range n).map
        (fun idx => u8aToDouble (readBytes (streamOf i hn hl o wc nc ws) (28 + 8 * idx) 8)) =
      ws := by
  subst hlen
  rw [List.map_congr_left
    (fun idx hidx => streamOf_weight i hn hl o wc nc ws hws idx (List.mem_range.mp hidx)),
    rangeMap_getD]

end Diwa

namespace Diwa

/-- Hosted `loadFromFile` on a well-formed stream with a not-all-zero
topology: the load succeeds, the decoded header ints are installed with
`weightCount`/`neuronCount` recomputed by `initialize`, the weight region is
exactly the decoded payload, and — because `initialize(…, true)` allocates
and randomizes one buffer and the subsequent explicit `initializeWeights`
call allocates a second one — `weights` ends in allocation
`nextAlloc + 1` while `outputs`/`deltas` stay in allocation `nextAlloc`. -/
lemma loadFromFile_streamOf_pos (s0 : DiwaState Nat) (rng junk : Nat → Nat)
    (i hn hl o wc nc : Int) (ws : List Nat)
    (ri : intRange i) (rhn : intRange hn) (rhl : intRange hl) (ro : intRange o)
    (rwc : intRange wc) (rnc : intRange nc)
    (hws : ∀ w ∈ ws, patRange w)
    (hz : ¬(i = 0 ∧ hl = 0 ∧ hn = 0 ∧ o = 0))
    (hlen : ws.length = (wFormula i hl hn o).toNat) :
    loadFromFile s0 (streamOf i hn hl o wc nc ws) true rng junk =
      (NO_ERROR,
        { s0 with
          inputNeurons := i
          hiddenNeurons := hn
          hiddenLayers := hl
          outputNeurons := o
          weightCount := wFormula i hl hn o
          neuronCount := nFormula i hl hn o
          weightsAlloc := s0.nextAlloc + 1
          outputsAlloc := s0.nextAlloc
          outputsOff := wFormula i hl hn o
          deltasAlloc := s0.nextAlloc
          deltasOff := wFormula i hl hn o + nFormula i hl hn o
          weights := ws
          nextAlloc := s0.nextAlloc + 2 }) := by
  obtain ⟨ri1, ri2⟩ := ri
  obtain ⟨rhn1, rhn2⟩ := rhn
  obtain ⟨rhl1, rhl2⟩ := rhl
  obtain ⟨ro1, ro2⟩ := ro
  obtain ⟨rwc1, rwc2⟩ := rwc
  obtain ⟨rnc1, rnc2⟩ := rnc
  unfold loadFromFile
  rw [if_neg (by simp), streamOf_magic, if_neg (by simp)]
  rw [streamOf_read1, streamOf_read2, streamOf_read3, streamOf_read4, streamOf_read5,
    streamOf_read6, u8aToInt_intToU8a i ri1 ri2, u8aToInt_intToU8a hn rhn1 rhn2,
    u8aToInt_intToU8a hl rhl1 rhl2, u8aToInt_intToU8a o ro1 ro2,
    u8aToInt_intToU8a wc rwc1 rwc2, u8aToInt_intToU8a nc rnc1 rnc2]
  simp only
  rw [initializeNet_pos_true _ rng junk hz]
  simp only [initializeWeights]
  rw [setLoop_eq_map _ _ _ (by simp)]
  rw [fill_eq_ws i hn hl o wc nc ws hws _ hlen]

/-- Hosted `loadFromFile` on a well-formed stream with an all-zero
topology: `initialize` is the no-op early return, so the header
`weightCount`/`neuronCount` read from the stream are kept as-is, a single
buffer is allocated by the explicit `initializeWeights` call, and the weight
region is the decoded payload. -/
lemma loadFromFile_streamOf_allZero (s0 : DiwaState Nat) (rng junk : Nat → Nat)
    (wc nc : Int) (ws : List Nat)
    (rwc : intRange wc) (rnc : intRange nc)
    (hws : ∀ w ∈ ws, patRange w)
    (hlen : ws.length = wc.toNat) :
    loadFromFile s0 (streamOf 0 0 0 0 wc nc ws) true rng junk =
      (NO_ERROR,
        { s0 with
          inputNeurons := 0
          hiddenNeurons := 0
          hiddenLayers := 0
          outputNeurons := 0
          weightCount := wc
          neuronCount := nc
          weightsAlloc := s0.nextAlloc
          nextAlloc := s0.nextAlloc + 1
          weights := ws }) := by
  obtain ⟨rwc1, rwc2⟩ := rwc
  obtain ⟨rnc1, rnc2⟩ := rnc
  unfold loadFromFile
  rw [if_neg (by simp), streamOf_magic, if_neg (by simp)]
  rw [streamOf_read1, streamOf_read2, streamOf_read3, streamOf_read4, streamOf_read5,
    streamOf_read6, u8aToInt_intToU8a 0 (by norm_num) (by norm_num),
    u8aToInt_intToU8a wc rwc1 rwc2, u8aToInt_intToU8a nc rnc1 rnc2]
  simp only
  rw [initializeNet_allZero _ true rng junk ⟨rfl, rfl, rfl, rfl⟩]
  simp only [initializeWeights]
  rw [setLoop_eq_map _ _ _ (by simp)]
  rw [fill_eq_ws 0 0 0 0 wc nc ws hws _ hlen]

end Diwa

/-! ## Lemmas about the forward engine -/

namespace Diwa

lemma getD_set_ne {α : Type} (l : List α) (i m : Nat) (v d : α) (h : i ≠ m) :
    (l.set i v).getD m d = l.getD m d := by
  rw [List.getD_eq_getElem?_getD, List.getElem?_set_ne h, ← List.getD_eq_getElem?_getD]

lemma setLoop_length {α : Type} (X : List α) (f : Nat → α) (n : Nat) :
    (setLoop X f n).length = X.length := by
  induction n with
  | zero => rfl
  | succ n ih => rw [setLoop_succ, List.length_set, ih]

lemma setLoop_getD_lt {α : Type} (X : List α) (f : Nat → α) (d : α) (n k : Nat)
    (hk : k < n) :
    (setLoop X f n).getD k d = if k < X.length then f k else d := by
  induction n with
  | zero => omega
  | succ n ih =>
    rw [setLoop_succ]
    rcases Nat.lt_or_ge k n with h | h
    · rw [List.getD_eq_getElem?_getD, List.getElem?_set_ne (by omega : n ≠ k),
        ← List.getD_eq_getElem?_getD, ih h]
    · have hk' : k = n := by omega
      subst hk'
      by_cases hl : k < X.length
      · rw [List.getD_eq_getElem?_getD,
          List.getElem?_set_self (by rw [setLoop_length]; exact hl), if_pos hl]
        rfl
      · rw [List.getD_eq_default _ _ (by rw [List.length_set, setLoop_length]; omega),
          if_neg hl]

lemma evalNeuronsInto_succ {α : Type} [LinearOrderedField α] (f : α → α) (ws : List α)
    (c : Nat) (A : List α) (rOff pc wOff n : Nat) :
    evalNeuronsInto f ws c A rOff pc wOff (n + 1) =
      (evalNeuronsInto f ws c A rOff pc wOff n).set (wOff + n)
        (f (neuronSum ws (c + n * (pc + 1))
          (evalNeuronsInto f ws c A rOff pc wOff n) rOff pc)) := by
  rw [evalNeuronsInto, List.range_succ, List.foldl_append]
  rfl

lemma evalNeuronsInto_length {α : Type} [LinearOrderedField α] (f : α → α) (ws : List α)
    (c : Nat) (A : List α) (rOff pc wOff n : Nat) :
    (evalNeuronsInto f ws c A rOff pc wOff n).length = A.length := by
  induction n with
  | zero => rfl
  | succ n ih => rw [evalNeuronsInto_succ, List.length_set, ih]

/-- Frame rule: the layer loop only writes at `wOff` and above. -/
lemma evalNeuronsInto_getD_lt {α : Type} [LinearOrderedField α] (f : α → α) (ws : List α)
    (c : Nat) (A : List α) (rOff pc wOff n m : Nat) (d : α) (hm : m < wOff) :
    (evalNeuronsInto f ws c A rOff pc wOff n).getD m d = A.getD m d := by
  induction n with
  | zero => rfl
  | succ n ih =>
    rw [evalNeuronsInto_succ, List.getD_eq_getElem?_getD,
      List.getElem?_set_ne (by omega : wOff + n ≠ m), ← List.getD_eq_getElem?_getD, ih]

lemma neuronSum_congr {α : Type} [LinearOrderedField α] (ws : List α) (c : Nat)
    (A B : List α) (rOff pc : Nat)
    (h : ∀ k < pc, A.getD (rOff + k) 0 = B.getD (rOff + k) 0) :
    neuronSum ws c A rOff pc = neuronSum ws c B rOff pc := by
  unfold neuronSum
  induction pc with
  | zero => rfl
  | succ pc ih =>
    rw [List.range_succ, List.foldl_append, List.foldl_append]
    simp only [List.foldl_cons, List.foldl_nil]
    rw [ih (fun k hk => h k (by omega)), h pc (by omega)]

/-- Two runs of the layer loop over activation arrays of the same length
that agree on the read region write equal activation values.  `hle` is the
separation of the read region below the write region, which holds at every
call site of the loop. -/
lemma evalNeuronsInto_agree {α : Type} [LinearOrderedField α] (f : α → α) (ws : List α)
    (c : Nat) (A B : List α) (rOff pc wOff : Nat)
    (hlen : A.length = B.length)
    (hr : ∀ k < pc, A.getD (rOff + k) 0 = B.getD (rOff + k) 0)
    (hle : rOff + pc ≤ wOff) (n : Nat) :
    ∀ j < n, (evalNeuronsInto f ws c A rOff pc wOff n).getD (wOff + j) 0 =
      (evalNeuronsInto f ws c B rOff pc wOff n).getD (wOff + j) 0 := by
  induction n with
  | zero => intro j hj; omega
  | succ n ih =>
    intro j hj
    have hS : neuronSum ws (c + n * (pc + 1))
          (evalNeuronsInto f ws c A rOff pc wOff n) rOff pc =
        neuronSum ws (c + n * (pc + 1))
          (evalNeuronsInto f ws c B rOff pc wOff n) rOff pc := by
      apply neuronSum_congr
      intro k hk
      rw [evalNeuronsInto_getD_lt f ws c A rOff pc wOff n (rOff + k) 0 (by omega),
        evalNeuronsInto_getD_lt f ws c B rOff pc wOff n (rOff + k) 0 (by omega), hr k hk]
    rw [evalNeuronsInto_succ, evalNeuronsInto_succ]
    rcases Nat.lt_or_ge j n with h | h
    · rw [getD_set_ne _ _ _ _ _ (by omega : wOff + n ≠ wOff + j),
        getD_set_ne _ _ _ _ _ (by omega : wOff + n ≠ wOff + j)]
      exact ih j h
    · have hj' : j = n := by omega
      subst hj'
      by_cases hwl : wOff + j < A.length
      · rw [List.getD_eq_getElem?_getD,
          List.getElem?_set_self (by rw [evalNeuronsInto_length]; exact hwl),
          List.getD_eq_getElem?_getD ((evalNeuronsInto f ws c B rOff pc wOff j).set _ _),
          List.getElem?_set_self (by rw [evalNeuronsInto_length]; omega), hS]
      · rw [List.getD_eq_default _ _
            (by rw [List.length_set, evalNeuronsInto_length]; omega),
          List.getD_eq_default _ _
            (by rw [List.length_set, evalNeuronsInto_length]; omega)]

end Diwa

namespace Diwa

lemma foldHidden_succ {α : Type} [LinearOrderedField α] (f : α → α) (ws : List α)
    (hc N : Nat) (p : List α × Nat × Nat × Nat) :
    (List.range (N + 1)).foldl (hiddenStep f ws hc) p =
      hiddenStep f ws hc ((List.range N).foldl (hiddenStep f ws hc) p) N := by
  rw [List.range_succ, List.foldl_append]
  rfl

/-- The weight cursor and both offsets evolve independently of the array. -/
lemma foldHidden_cursor {α : Type} [LinearOrderedField α] (f : α → α) (ws : List α)
    (hc : Nat) :
    ∀ (N : Nat) (A : List α) (cur rOff wOff : Nat),
      ((List.range N).foldl (hiddenStep f ws hc) (A, cur, rOff, wOff)).2 =
        (cur + N * (hc * (hc + 1)), rOff + N * hc, wOff + N * hc) := by
  intro N
  induction N with
  | zero => intro A cur rOff wOff; simp
  | succ N ih =>
    intro A cur rOff wOff
    rw [foldHidden_succ]
    simp only [hiddenStep, ih]
    simp only [Prod.mk.injEq]
    refine ⟨by ring, by ring, by ring⟩

lemma foldHidden_length {α : Type} [LinearOrderedField α] (f : α → α) (ws : List α)
    (hc : Nat) :
    ∀ (N : Nat) (A : List α) (cur rOff wOff : Nat),
      ((List.range N).foldl (hiddenStep f ws hc) (A, cur, rOff, wOff)).1.length =
        A.length := by
  intro N
  induction N with
  | zero => intro A cur rOff wOff; rfl
  | succ N ih =>
    intro A cur rOff wOff
    rw [foldHidden_succ]
    simp only [hiddenStep]
    rw [evalNeuronsInto_length, ih]

/-- Through any number of hidden-layer iterations, two runs on arrays of
equal length that agree on the initial read region keep agreeing on the
current read region (which after `N` steps sits at `rOff + N*hc`). -/
lemma foldHidden_agree {α : Type} [LinearOrderedField α] (f : α → α) (ws : List α)
    (hc : Nat) :
    ∀ (N : Nat) (A B : List α) (cur rOff : Nat),
      A.length = B.length →
      (∀ k < hc, A.getD (rOff + k) 0 = B.getD (rOff + k) 0) →
      ∀ k < hc,
        ((List.range N).foldl (hiddenStep f ws hc) (A, cur, rOff, rOff + hc)).1.getD
          (rOff + N * hc + k) 0 =
        ((List.range N).foldl (hiddenStep f ws hc) (B, cur, rOff, rOff + hc)).1.getD
          (rOff + N * hc + k) 0 := by
  intro N
  induction N with
  | zero =>
    intro A B cur rOff hlen hr k hk
    simpa using hr k hk
  | succ N ih =>
    intro A B cur rOff hlen hr k hk
    rw [foldHidden_succ, foldHidden_succ]
    simp only [hiddenStep, foldHidden_cursor]
    have hidx : rOff + (N + 1) * hc + k = (rOff + hc + N * hc) + k := by ring
    rw [hidx]
    apply evalNeuronsInto_agree f ws _ _ _ (rOff + N * hc) hc (rOff + hc + N * hc)
      (by rw [foldHidden_length, foldHidden_length, hlen])
      (fun k' hk' => ih A B cur rOff hlen hr k' hk')
      (by omega) hc k hk

end Diwa

namespace Diwa

/-- The inference outputs depend only on the weights, the four topology
fields, the activation function, and the length of the activation region —
never on the region's previous contents.  In the source, every slot read
during a pass (`inputs[k]`) has been written earlier in the same pass by
the `memcpy` or by a previous layer (or is out of range on both runs). -/
lemma inferenceRun_snd_congr {α : Type} [LinearOrderedField α] (s t : DiwaState α)
    (v : List α)
    (hw : t.weights = s.weights) (hi : t.inputNeurons = s.inputNeurons)
    (hhn : t.hiddenNeurons = s.hiddenNeurons) (hhl : t.hiddenLayers = s.hiddenLayers)
    (ho : t.outputNeurons = s.outputNeurons) (hact : t.activation = s.activation)
    (hlen : t.activations.length = s.activations.length) :
    (inferenceRun t v).2 = (inferenceRun s v).2 := by
  unfold inferenceRun
  rw [hw, hi, hhn, hhl, ho, hact]
  have hA0len : (setLoop t.activations (fun k => v.getD k 0) s.inputNeurons.toNat).length =
      (setLoop s.activations (fun k => v.getD k 0) s.inputNeurons.toNat).length := by
    rw [setLoop_length, setLoop_length, hlen]
  have hA0 : ∀ k < s.inputNeurons.toNat,
      (setLoop t.activations (fun k => v.getD k 0) s.inputNeurons.toNat).getD (0 + k) 0 =
      (setLoop s.activations (fun k => v.getD k 0) s.inputNeurons.toNat).getD (0 + k) 0 := by
    intro k hk
    rw [Nat.zero_add, setLoop_getD_lt _ _ _ _ _ hk, setLoop_getD_lt _ _ _ _ _ hk, hlen]
  by_cases h0 : s.hiddenLayers = 0
  · simp only [if_pos h0]
    apply List.map_congr_left
    intro j hj
    exact evalNeuronsInto_agree s.activation s.weights 0 _ _ 0 s.inputNeurons.toNat
      s.inputNeurons.toNat hA0len hA0 (by omega) s.outputNeurons.toNat j
      (List.mem_range.mp hj)
  · simp only [if_neg h0]
    have hA1len : (evalNeuronsInto s.activation s.weights 0
        (setLoop t.activations (fun k => v.getD k 0) s.inputNeurons.toNat) 0
        s.inputNeurons.toNat s.inputNeurons.toNat s.hiddenNeurons.toNat).length =
        (evalNeuronsInto s.activation s.weights 0
        (setLoop s.activations (fun k => v.getD k 0) s.inputNeurons.toNat) 0
        s.inputNeurons.toNat s.inputNeurons.toNat s.hiddenNeurons.toNat).length := by
      rw [evalNeuronsInto_length, evalNeuronsInto_length, hA0len]
    have hA1 : ∀ k < s.hiddenNeurons.toNat,
        (evalNeuronsInto s.activation s.weights 0
          (setLoop t.activations (fun k => v.getD k 0) s.inputNeurons.toNat) 0
          s.inputNeurons.toNat s.inputNeurons.toNat s.hiddenNeurons.toNat).getD
            (s.inputNeurons.toNat + k) 0 =
        (evalNeuronsInto s.activation s.weights 0
          (setLoop s.activations (fun k => v.getD k 0) s.inputNeurons.toNat) 0
          s.inputNeurons.toNat s.inputNeurons.toNat s.hiddenNeurons.toNat).getD
            (s.inputNeurons.toNat + k) 0 := by
      intro k hk
      exact evalNeuronsInto_agree s.activation s.weights 0 _ _ 0 s.inputNeurons.toNat
        s.inputNeurons.toNat hA0len hA0 (by omega) s.hiddenNeurons.toNat k hk
    have hfold := foldHidden_agree s.activation s.weights s.hiddenNeurons.toNat
      (s.hiddenLayers - 1).toNat _ _ (s.hiddenNeurons.toNat * (s.inputNeurons.toNat + 1))
      s.inputNeurons.toNat hA1len hA1
    simp only [foldHidden_cursor]
    apply List.map_congr_left
    intro j hj
    exact evalNeuronsInto_agree s.activation s.weights _ _ _
      (s.inputNeurons.toNat + (s.hiddenLayers - 1).toNat * s.hiddenNeurons.toNat)
      s.hiddenNeurons.toNat
      (s.inputNeurons.toNat + s.hiddenNeurons.toNat +
        (s.hiddenLayers - 1).toNat * s.hiddenNeurons.toNat)
      (by rw [foldHidden_length, foldHidden_length, hA1len]) hfold (by omega)
      s.outputNeurons.toNat j (List.mem_range.mp hj)

end Diwa

namespace Diwa

/-- `Diwa::inference` mutates only the activation region; every other field
(weights, topology, counts, pointers, activation function) is untouched,
and the activation region keeps its length. -/
lemma inferenceRun_fst {α : Type} [LinearOrderedField α] (s : DiwaState α) (v : List α) :
    (inferenceRun s v).1.weights = s.weights ∧
    (inferenceRun s v).1.inputNeurons = s.inputNeurons ∧
    (inferenceRun s v).1.hiddenNeurons = s.hiddenNeurons ∧
    (inferenceRun s v).1.hiddenLayers = s.hiddenLayers ∧
    (inferenceRun s v).1.outputNeurons = s.outputNeurons ∧
    (inferenceRun s v).1.activation = s.activation ∧
    (inferenceRun s v).1.activations.length = s.activations.length := by
  unfold inferenceRun
  by_cases h0 : s.hiddenLayers = 0
  · simp only [if_pos h0]
    refine ⟨trivial, trivial, trivial, trivial, trivial, trivial, ?_⟩
    rw [evalNeuronsInto_length, setLoop_length]
  · simp only [if_neg h0]
    refine ⟨trivial, trivial, trivial, trivial, trivial, trivial, ?_⟩
    rw [evalNeuronsInto_length, foldHidden_length, evalNeuronsInto_length, setLoop_length]

/-- The outcome of one `testInference` trial also only depends on the
inference-relevant fields and the activation-region length. -/
lemma testInferenceRun_snd_congr {α : Type} [LinearOrderedField α] (s t : DiwaState α)
    (ti tt : List α)
    (hw : t.weights = s.weights) (hi : t.inputNeurons = s.inputNeurons)
    (hhn : t.hiddenNeurons = s.hiddenNeurons) (hhl : t.hiddenLayers = s.hiddenLayers)
    (ho : t.outputNeurons = s.outputNeurons) (hact : t.activation = s.activation)
    (hlen : t.activations.length = s.activations.length) :
    (testInferenceRun t ti tt).2 = (testInferenceRun s ti tt).2 := by
  unfold testInferenceRun
  simp only [ho, inferenceRun_snd_congr s t ti hw hi hhn hhl ho hact hlen]

/-- The counting loop of `calculateAccuracy`: since inference is
deterministic, every trial yields the same outcome as the first, so the
final count is `c` plus either `n` (all correct) or `0` (none). -/
lemma accuracyLoop_count {α : Type} [LinearOrderedField α] (ti tt : List α) :
    ∀ (n : Nat) (s : DiwaState α) (c : Nat),
      (accuracyLoop ti tt s n c).2 =
        c + (if (testInferenceRun s ti tt).2 then n else 0) := by
  intro n
  induction n with
  | zero => intro s c; simp [accuracyLoop]
  | succ n ih =>
    intro s c
    rw [accuracyLoop]
    rw [ih]
    obtain ⟨h1, h2, h3, h4, h5, h6, h7⟩ := inferenceRun_fst s ti
    have hb : (testInferenceRun (testInferenceRun s ti tt).1 ti tt).2 =
        (testInferenceRun s ti tt).2 := by
      exact testInferenceRun_snd_congr s (testInferenceRun s ti tt).1 ti tt h1 h2 h3 h4 h5 h6 h7
    rw [hb]
    by_cases hB : (testInferenceRun s ti tt).2
    · simp only [hB, if_true]
      omega
    · simp [hB]

end Diwa

namespace Diwa

/-- Supporting fact for the hosted build: on any stream whose first four
bytes are not the magic, `loadFromFile` reports the invalid-magic error and
returns with the object untouched. -/
lemma loadFromFile_invalid_magic (s : DiwaState Nat) (bytes : List Nat)
    (rng junk : Nat → Nat) (h : readBytes bytes 0 4 ≠ diwaMagic) :
    loadFromFile s bytes true rng junk = (INVALID_MAGIC_NUMBER, s) := by
  unfold loadFromFile
  rw [if_neg (by simp), if_pos h]

/-- C1.  For every network state reachable through the public interface
(`goodState`), saving to an open sink and loading the produced bytes into a
fresh instance succeeds and yields an instance whose six stored integers
equal those of the saved network and whose weight region holds the
bit-identical sequence of `weightCount` 64-bit patterns. -/
theorem saveLoad_roundtrip (s s0 : DiwaState Nat) (rng junk : Nat → Nat)
    (hs : goodState s) :
    (saveToFile s true).1 = NO_ERROR ∧
    (loadFromFile s0 (saveToFile s true).2 true rng junk).1 = NO_ERROR ∧
    (loadFromFile s0 (saveToFile s true).2 true rng junk).2.inputNeurons =
      s.inputNeurons ∧
    (loadFromFile s0 (saveToFile s true).2 true rng junk).2.hiddenNeurons =
      s.hiddenNeurons ∧
    (loadFromFile s0 (saveToFile s true).2 true rng junk).2.hiddenLayers =
      s.hiddenLayers ∧
    (loadFromFile s0 (saveToFile s true).2 true rng junk).2.outputNeurons =
      s.outputNeurons ∧
    (loadFromFile s0 (saveToFile s true).2 true rng junk).2.weightCount =
      s.weightCount ∧
    (loadFromFile s0 (saveToFile s true).2 true rng junk).2.neuronCount =
      s.neuronCount ∧
    (loadFromFile s0 (saveToFile s true).2 true rng junk).2.weights = s.weights := by
  obtain ⟨r1, r2, r3, r4, r5, r6, hws, hlen, hcons⟩ := hs
  rw [saveToFile_eq_streamOf s hlen]
  by_cases hz : s.inputNeurons = 0 ∧ s.hiddenLayers = 0 ∧ s.hiddenNeurons = 0 ∧
      s.outputNeurons = 0
  · obtain ⟨hz1, hz2, hz3, hz4⟩ := hz
    rw [hz1, hz2, hz3, hz4]
    rw [loadFromFile_streamOf_allZero s0 rng junk s.weightCount s.neuronCount s.weights
      r5 r6 hws hlen]
    simp
  · have hf := hcons.resolve_left hz
    obtain ⟨hwc, hnc⟩ := hf
    rw [loadFromFile_streamOf_pos s0 rng junk s.inputNeurons s.hiddenNeurons
      s.hiddenLayers s.outputNeurons s.weightCount s.neuronCount s.weights
      r1 r2 r3 r4 r5 r6 hws hz (by rw [hlen, hwc])]
    simp [← hwc, ← hnc]

end Diwa

namespace Diwa

/-- Witness for C1: the concrete consistent network `cState` round-trips, its
two weight patterns (including one above `2^63`) surviving bit-identically. -/
theorem saveLoad_roundtrip_witness :
    goodState cState ∧
    (loadFromFile emptyState (saveToFile cState true).2 true zfn zfn).2.weights =
      cState.weights ∧
    (loadFromFile emptyState (saveToFile cState true).2 true zfn zfn).2.weightCount =
      cState.weightCount :=
  ⟨by unfold goodState intRange patRange; decide,
    (saveLoad_roundtrip cState emptyState zfn zfn
      (by unfold goodState intRange patRange; decide)).2.2.2.2.2.2.2.2,
    (saveLoad_roundtrip cState emptyState zfn zfn
      (by unfold goodState intRange patRange; decide)).2.2.2.2.2.2.1⟩

/-- C2.  For every well-formed model stream — magic, six header ints with the
counts the formulas produce for the declared topology, and a payload of
exactly `weightCount` patterns — the hosted `loadFromFile` succeeds and the
weight region afterwards is exactly the decoded payload, for EVERY random
source and every uninitialized-buffer content; in particular it is
independent of them. -/
theorem loadFromFile_weights_from_payload (s0 : DiwaState Nat)
    (rng junk rng' junk' : Nat → Nat) (i hn hl o : Int) (ws : List Nat)
    (ri : intRange i) (rhn : intRange hn) (rhl : intRange hl) (ro : intRange o)
    (rwf : intRange (wFormula i hl hn o)) (rnf : intRange (nFormula i hl hn o))
    (hws : ∀ w ∈ ws, patRange w)
    (hlen : ws.length = (wFormula i hl hn o).toNat) :
    (loadFromFile s0 (streamOf i hn hl o (wFormula i hl hn o) (nFormula i hl hn o) ws)
        true rng junk).1 = NO_ERROR ∧
    (loadFromFile s0 (streamOf i hn hl o (wFormula i hl hn o) (nFormula i hl hn o) ws)
        true rng junk).2.weights = ws ∧
    (loadFromFile s0 (streamOf i hn hl o (wFormula i hl hn o) (nFormula i hl hn o) ws)
        true rng junk).2.weights =
      (loadFromFile s0 (streamOf i hn hl o (wFormula i hl hn o) (nFormula i hl hn o) ws)
        true rng' junk').2.weights := by
  by_cases hz : i = 0 ∧ hl = 0 ∧ hn = 0 ∧ o = 0
  · obtain ⟨hz1, hz2, hz3, hz4⟩ := hz
    subst hz1
    subst hz2
    subst hz3
    subst hz4
    rw [loadFromFile_streamOf_allZero s0 rng junk _ _ ws rwf rnf hws hlen,
      loadFromFile_streamOf_allZero s0 rng' junk' _ _ ws rwf rnf hws hlen]
    simp
  · rw [loadFromFile_streamOf_pos s0 rng junk i hn hl o _ _ ws ri rhn rhl ro rwf rnf
      hws hz hlen,
      loadFromFile_streamOf_pos s0 rng' junk' i hn hl o _ _ ws ri rhn rhl ro rwf rnf
      hws hz hlen]
    simp

/-- Witness for C2: a concrete well-formed stream for topology (1,0,0,1) with
payload `[7, 9]` loads with exactly those two patterns in the weight
region. -/
theorem loadFromFile_weights_from_payload_witness :
    ([7, 9] : List Nat).length = (wFormula 1 0 0 1).toNat ∧
    (loadFromFile emptyState
        (streamOf 1 0 0 1 (wFormula 1 0 0 1) (nFormula 1 0 0 1) [7, 9])
        true zfn zfn).2.weights = [7, 9] :=
  ⟨by decide,
    (loadFromFile_weights_from_payload emptyState zfn zfn zfn zfn 1 0 0 1 [7, 9]
      (by unfold intRange; decide) (by unfold intRange; decide)
      (by unfold intRange; decide) (by unfold intRange; decide)
      (by unfold intRange; decide) (by unfold intRange; decide)
      (by unfold patRange; decide) (by decide)).2.1⟩

end Diwa

namespace Diwa

/-- C3 (code bug, Arduino build).  The Arduino `loadFromFile` guards the
magic with `memcmp(magic, "diwa", 4) == 1`, so it rejects a stream only when
`memcmp` returns exactly 1.  On the stream beginning `'c','i','w','a'`
(first byte below `'d'`, so every conforming `memcmp` returns a negative
value) the load is NOT rejected: it returns `NO_ERROR` and overwrites the
instance's fields with the garbage header, here zeroing `inputNeurons` from
its prior value 7.  The hosted build (see `loadFromFile_invalid_magic`)
behaves as the claim states. -/
theorem loadFromFileArduino_invalid_magic_accepted :
    (loadFromFileArduino c3state c3stream zfn zfn).1 ≠ INVALID_MAGIC_NUMBER ∧
    (loadFromFileArduino c3state c3stream zfn zfn).1 = NO_ERROR ∧
    (loadFromFileArduino c3state c3stream zfn zfn).2.inputNeurons ≠
      c3state.inputNeurons := by
  decide

/-- C4 (code bug).  After a successful hosted `loadFromFile` the arena is NOT
one allocation partitioned into weights/activations/deltas: `initialize(…,
true)` allocates a buffer and points `outputs`/`deltas` into it, then the
explicit second `initializeWeights` call repoints `weights` at a fresh
allocation, so the activation and delta regions live in a different
allocation than the weight region.  Evaluated here on the valid stream of a
(1 input, 0 hidden, 1 output) model. -/
theorem loadFromFile_partition_bug :
    (loadFromFile emptyState (streamOf 1 0 0 1 2 2 [3, 5]) true zfn zfn).1 =
      NO_ERROR ∧
    (loadFromFile emptyState (streamOf 1 0 0 1 2 2 [3, 5]) true zfn zfn).2.outputsAlloc ≠
      (loadFromFile emptyState (streamOf 1 0 0 1 2 2 [3, 5]) true zfn zfn).2.weightsAlloc ∧
    (loadFromFile emptyState (streamOf 1 0 0 1 2 2 [3, 5]) true zfn zfn).2.deltasAlloc ≠
      (loadFromFile emptyState (streamOf 1 0 0 1 2 2 [3, 5]) true zfn zfn).2.weightsAlloc := by
  decide

/-- Counterexample to C6: with the not-all-zero counts (1,0,0,1) and
`randomize = false`, `initialize` performs NO allocation (the allocation
counter does not move and the weights pointer is unchanged), while the same
call with `randomize = true` does allocate — so allocation does depend on
the randomize argument. -/
theorem initializeNet_alloc_cex :
    (initializeNet emptyState 1 0 0 1 false zfn zfn).2.nextAlloc =
      emptyState.nextAlloc ∧
    (initializeNet emptyState 1 0 0 1 false zfn zfn).2.weightsAlloc =
      emptyState.weightsAlloc ∧
    (initializeNet emptyState 1 0 0 1 true zfn zfn).2.nextAlloc ≠
      emptyState.nextAlloc := by
  decide

/-- C6 as amended.  For every call to `initialize` whose four counts are not
all zero: with `randomize = true` the arena buffer is allocated
(`weights` repointed to the fresh allocation `nextAlloc`); with
`randomize = false` no allocation happens at all — the buffer pointer and
the allocation counter are left untouched. -/
theorem initializeNet_alloc_iff_randomize {α : Type} (s : DiwaState α)
    (i hl hn o : Int) (rng junk : Nat → α)
    (hz : ¬(i = 0 ∧ hl = 0 ∧ hn = 0 ∧ o = 0)) :
    ((initializeNet s i hl hn o true rng junk).2.weightsAlloc = s.nextAlloc ∧
      (initializeNet s i hl hn o true rng junk).2.nextAlloc = s.nextAlloc + 1) ∧
    ((initializeNet s i hl hn o false rng junk).2.weightsAlloc = s.weightsAlloc ∧
      (initializeNet s i hl hn o false rng junk).2.nextAlloc = s.nextAlloc) := by
  rw [initializeNet_pos_true s rng junk hz, initializeNet_pos_false s rng junk hz]
  exact ⟨⟨rfl, rfl⟩, rfl, rfl⟩

/-- Witness for the amended C6 at the concrete counts (1,0,0,1). -/
theorem initializeNet_alloc_iff_randomize_witness :
    ¬((1 : Int) = 0 ∧ (0 : Int) = 0 ∧ (0 : Int) = 0 ∧ (1 : Int) = 0) ∧
    (initializeNet emptyState 1 0 0 1 true zfn zfn).2.weightsAlloc =
      emptyState.nextAlloc ∧
    (initializeNet emptyState 1 0 0 1 false zfn zfn).2.nextAlloc =
      emptyState.nextAlloc :=
  ⟨by decide,
    (initializeNet_alloc_iff_randomize emptyState 1 0 0 1 zfn zfn (by decide)).1.1,
    (initializeNet_alloc_iff_randomize emptyState 1 0 0 1 zfn zfn (by decide)).2.2⟩

/-- Counterexample to C7: the claim quantifies over every topology with all
four counts `≥ 0`, but for the all-zero topology `initialize` is an early
no-op return and computes nothing.  Initializing (1,0,0,1) first (so
`weightCount = 2`) and then calling `initialize(0,0,0,0)` leaves
`weightCount = 2`, while the claimed formulas give 0 for the all-zero
topology. -/
theorem initializeNet_formulas_cex :
    (initializeNet (initializeNet emptyState 1 0 0 1 true zfn zfn).2 0 0 0 0 true
        zfn zfn).2.weightCount ≠ wFormula 0 0 0 0 ∧
    wFormula 0 0 0 0 = 0 := by
  unfold wFormula
  decide

/-- C7 as amended.  For every topology with the four counts `≥ 0` and not
all zero, `initialize` stores `weightCount = hiddenWeightCount +
outputWeightCount` and `neuronCount = inputCount + hiddenWidth·hiddenLayers
+ outputCount`, with the formulas exactly as the claim writes them
(`hiddenLayerCount > 0` guards). -/
theorem initializeNet_formulas {α : Type} (s : DiwaState α) (i hl hn o : Int)
    (r : Bool) (rng junk : Nat → α)
    (_h0i : 0 ≤ i) (h0l : 0 ≤ hl) (_h0n : 0 ≤ hn) (_h0o : 0 ≤ o)
    (hz : ¬(i = 0 ∧ hl = 0 ∧ hn = 0 ∧ o = 0)) :
    (initializeNet s i hl hn o r rng junk).2.weightCount =
      (if 0 < hl then (i + 1) * hn + (hl - 1) * (hn + 1) * hn else 0) +
        (if 0 < hl then hn + 1 else i + 1) * o ∧
    (initializeNet s i hl hn o r rng junk).2.neuronCount = i + hn * hl + o := by
  have hiff : (0 < hl) = (hl ≠ 0) := by
    apply propext
    omega
  cases r
  · rw [initializeNet_pos_false s rng junk hz]
    simp only [hiff]
    exact ⟨rfl, rfl⟩
  · rw [initializeNet_pos_true s rng junk hz]
    simp only [hiff]
    exact ⟨rfl, rfl⟩

/-- Witness for the amended C7 at the concrete topology (2 inputs, 1 hidden
layer of width 3, 1 output): `weightCount = (2+1)·3 + (3+1)·1 = 13`,
`neuronCount = 2 + 3·1 + 1 = 6`. -/
theorem initializeNet_formulas_witness :
    (0 : Int) ≤ 2 ∧ ¬((2 : Int) = 0 ∧ (1 : Int) = 0 ∧ (3 : Int) = 0 ∧ (1 : Int) = 0) ∧
    (initializeNet emptyState 2 1 3 1 true zfn zfn).2.weightCount = 13 ∧
    (initializeNet emptyState 2 1 3 1 true zfn zfn).2.neuronCount = 6 := by
  have h := initializeNet_formulas emptyState 2 1 3 1 true zfn zfn
    (by norm_num) (by norm_num) (by norm_num) (by norm_num) (by decide)
  refine ⟨by norm_num, by decide, ?_, ?_⟩
  · rw [h.1]
    norm_num
  · rw [h.2]
    norm_num

end Diwa

namespace Diwa

/-- C9.  Determinism of inference: a second `inference` call with the same
input on the state produced by the first (no intervening `train`) returns
the identical output vector, for every network state and input.  This holds
because `inference` never changes the weights, the topology fields or the
activation function, and because its outputs do not depend on the previous
contents of the activation region. -/
theorem inference_deterministic {α : Type} [LinearOrderedField α] (s : DiwaState α)
    (v : List α) :
    (inferenceRun (inferenceRun s v).1 v).2 = (inferenceRun s v).2 := by
  obtain ⟨h1, h2, h3, h4, h5, h6, h7⟩ := inferenceRun_fst s v
  exact inferenceRun_snd_congr s (inferenceRun s v).1 v h1 h2 h3 h4 h5 h6 h7

/-- For `epoch ≥ 1` the accuracy is exactly 1 when the (deterministic) trial
succeeds and exactly 0 when it fails. -/
lemma calculateAccuracy_val {α : Type} [LinearOrderedField α] (s : DiwaState α)
    (ti tt : List α) (N : Int) (hN : 1 ≤ N) :
    (calculateAccuracy s ti tt N).2 =
      if (testInferenceRun s ti tt).2 then 1 else 0 := by
  unfold calculateAccuracy
  simp only [accuracyLoop_count, Nat.zero_add]
  have hcast : ((N.toNat : ℕ) : α) = ((N : Int) : α) := by
    rw [← Int.cast_natCast, Int.toNat_of_nonneg (by omega : (0 : Int) ≤ N)]
  have hpos : (0 : α) < ((N : Int) : α) := by
    exact_mod_cast (by omega : (0 : Int) < N)
  by_cases hB : (testInferenceRun s ti tt).2
  · simp only [hB, if_true]
    rw [hcast]
    exact div_self (ne_of_gt hpos)
  · simp [hB]

/-- C10.  Because every trial of `calculateAccuracy` repeats the same
deterministic inference on the same fixed input/target pair, the trials are
all-correct or all-incorrect, and the returned accuracy is exactly 0 or
exactly 1 for every trial count `≥ 1`. -/
theorem calculateAccuracy_zero_or_one {α : Type} [LinearOrderedField α]
    (s : DiwaState α) (ti tt : List α) (N : Int) (hN : 1 ≤ N) :
    (calculateAccuracy s ti tt N).2 = 0 ∨ (calculateAccuracy s ti tt N).2 = 1 := by
  rw [calculateAccuracy_val s ti tt N hN]
  by_cases hB : (testInferenceRun s ti tt).2
  · right
    simp [hB]
  · left
    simp [hB]

/-- Witness for C10 on the concrete rational network `qState`, whose single
output evaluates to 1 ≥ 1/2, so the accuracy over two trials is exactly 1. -/
theorem calculateAccuracy_zero_or_one_witness :
    (1 : Int) ≤ 2 ∧
    ((calculateAccuracy qState [1] [1] 2).2 = 0 ∨
      (calculateAccuracy qState [1] [1] 2).2 = 1) :=
  ⟨by norm_num, calculateAccuracy_zero_or_one qState [1] [1] 2 (by norm_num)⟩

/-- C8.  For every trial count `≥ 1` the accuracy lies in [0,1], the loss is
exactly `1 − accuracy`, and a trial counts as correct exactly when every
output slot is `≥ 0.5` whenever the corresponding target is nonzero. -/
theorem calculateAccuracy_bounds_loss {α : Type} [LinearOrderedField α]
    (s : DiwaState α) (ti tt : List α) (N : Int) (hN : 1 ≤ N) :
    0 ≤ (calculateAccuracy s ti tt N).2 ∧
    (calculateAccuracy s ti tt N).2 ≤ 1 ∧
    (calculateLoss s ti tt N).2 = 1 - (calculateAccuracy s ti tt N).2 ∧
    ((testInferenceRun s ti tt).2 = true ↔
      ∀ j < s.outputNeurons.toNat,
        tt.getD j 0 ≠ 0 → 1 / 2 ≤ ((inferenceRun s ti).2).getD j 0) := by
  refine ⟨?_, ?_, rfl, ?_⟩
  · rw [calculateAccuracy_val s ti tt N hN]
    by_cases hB : (testInferenceRun s ti tt).2 <;> simp [hB]
  · rw [calculateAccuracy_val s ti tt N hN]
    by_cases hB : (testInferenceRun s ti tt).2 <;> simp [hB]
  · unfold testInferenceRun
    simp only [List.all_eq_true, List.mem_range, Bool.not_eq_eq_eq_not, Bool.not_true,
      decide_eq_false_iff_not, not_and, not_lt, ne_eq]
    constructor
    · intro h j hj htt
      rcases lt_or_ge ((inferenceRun s ti).2.getD j 0) (1 / 2) with hlt | hge
      · exact absurd (not_not.mp (h j hj hlt)) htt
      · exact hge
    · intro h j hj hlt
      by_cases htt : tt.getD j 0 = 0
      · exact not_not_intro htt
      · exact absurd hlt (not_lt.mpr (h j hj htt))

/-- Witness for C8 on `qState`: accuracy 1 over two trials, loss `1 − 1`. -/
theorem calculateAccuracy_bounds_loss_witness :
    (1 : Int) ≤ 2 ∧
    0 ≤ (calculateAccuracy qState [1] [1] 2).2 ∧
    (calculateLoss qState [1] [1] 2).2 = 1 - (calculateAccuracy qState [1] [1] 2).2 :=
  ⟨by norm_num,
    (calculateAccuracy_bounds_loss qState [1] [1] 2 (by norm_num)).1,
    (calculateAccuracy_bounds_loss qState [1] [1] 2 (by norm_num)).2.2.1⟩

end Diwa

namespace DiwaActivationFunc

/-- Counterexample to C5: the clamp tests in the source are strict (`<` and
`>`), so AT the bounds the unclamped expression `1/(1+exp(∓30))` is
evaluated, which is strictly between 0 and 1 — not exactly 0.0 (resp. 1.0)
as the claim's "at or below" / "at or above" asserts. -/
theorem sigmoid_at_bound_cex :
    sigmoid DIWA_ACTFUNC_LOWER_BOUND ≠ 0 ∧ sigmoid DIWA_ACTFUNC_UPPER_BOUND ≠ 1 := by
  constructor
  · rw [sigmoid,
      if_neg (by norm_num [DIWA_ACTFUNC_LOWER_BOUND]),
      if_neg (by norm_num [DIWA_ACTFUNC_LOWER_BOUND, DIWA_ACTFUNC_UPPER_BOUND])]
    have hpos : (0 : ℝ) < 1 / (1 + Real.exp (-DIWA_ACTFUNC_LOWER_BOUND)) := by
      positivity
    exact ne_of_gt hpos
  · rw [sigmoid,
      if_neg (by norm_num [DIWA_ACTFUNC_LOWER_BOUND, DIWA_ACTFUNC_UPPER_BOUND]),
      if_neg (by norm_num [DIWA_ACTFUNC_UPPER_BOUND])]
    have he : (0 : ℝ) < Real.exp (-DIWA_ACTFUNC_UPPER_BOUND) := Real.exp_pos _
    have hlt : 1 / (1 + Real.exp (-DIWA_ACTFUNC_UPPER_BOUND)) < 1 := by
      rw [div_lt_one (by positivity)]
      linarith
    exact ne_of_lt hlt

/-- C5 as amended.  The default activation returns exactly 0.0 for every
input strictly below the lower clamp bound and exactly 1.0 for every input
strictly above the upper clamp bound; the two bounds are symmetric about
zero (−30 and 30). -/
theorem sigmoid_saturates_strict (x : ℝ) :
    (x < DIWA_ACTFUNC_LOWER_BOUND → sigmoid x = 0) ∧
    (DIWA_ACTFUNC_UPPER_BOUND < x → sigmoid x = 1) ∧
    DIWA_ACTFUNC_LOWER_BOUND = -DIWA_ACTFUNC_UPPER_BOUND := by
  refine ⟨?_, ?_, by norm_num [DIWA_ACTFUNC_LOWER_BOUND, DIWA_ACTFUNC_UPPER_BOUND]⟩
  · intro h
    rw [sigmoid, if_pos h]
  · intro h
    have hn : ¬ x < DIWA_ACTFUNC_LOWER_BOUND := by
      simp only [DIWA_ACTFUNC_LOWER_BOUND, DIWA_ACTFUNC_UPPER_BOUND] at h ⊢
      linarith
    rw [sigmoid, if_neg hn, if_pos h]

/-- Witness for the amended C5 at the inputs −31 and 31. -/
theorem sigmoid_saturates_strict_witness :
    ((-31 : ℝ) < DIWA_ACTFUNC_LOWER_BOUND ∧ sigmoid (-31) = 0) ∧
    (DIWA_ACTFUNC_UPPER_BOUND < (31 : ℝ) ∧ sigmoid 31 = 1) :=
  ⟨⟨by norm_num [DIWA_ACTFUNC_LOWER_BOUND],
      (sigmoid_saturates_strict (-31)).1 (by norm_num [DIWA_ACTFUNC_LOWER_BOUND])⟩,
    ⟨by norm_num [DIWA_ACTFUNC_UPPER_BOUND],
      (sigmoid_saturates_strict 31).2.1 (by norm_num [DIWA_ACTFUNC_UPPER_BOUND])⟩⟩

end DiwaActivationFunc
